import Mathlib

/-!
Verification of the serial cache-profiler utility (`cache_profiler_serial.py`).

Python strings are modelled as `List Char`; the serial device is modelled as a
pure function from the sent command line to the raw line stream that arrives
before the per-command deadline (list exhaustion = deadline expiry).  Python's
`None`-or-value results are modelled with `Option`; the tri-valued result of
`execute_devmem` (None / bool / int) is the inductive `PyResult`.  Floating
point arithmetic in `calculate_hit_rate` is modelled by exact rationals.
-/

set_option autoImplicit false

/-! ### String primitives (Python `str.strip`, `in`, substring search) -/

/-- Whitespace characters removed by Python's `str.strip()`. -/
def wsChar (c : Char) : Bool :=
  c = ' ' || c = '\t' || c = '\n' || c = '\r' || c = '\x0b' || c = '\x0c'

/-- Python `str.strip()`: drop leading and trailing whitespace. -/
def stripChars (s : List Char) : List Char :=
  ((s.dropWhile wsChar).reverse.dropWhile wsChar).reverse

/-- If `n` starts the string `s`, return the remainder of `s` after `n`. -/
def dropStart? : List Char → List Char → Option (List Char)
  | [], s => some s
  | _ :: _, [] => none
  | a :: p, b :: s => if a = b then dropStart? p s else none

/-- Python's `needle in hay` substring test. -/
def containsSub : List Char → List Char → Bool
  | n, [] => n.isEmpty
  | n, b :: t => (dropStart? n (b :: t)).isSome || containsSub n t

/-! ### The devmem reply parser (`parse_devmem_value`) -/

/-- Hex digit class of the regex character class `[0-9a-fA-F]`. -/
def isHexDigitCh (c : Char) : Bool :=
  ('0'.toNat ≤ c.toNat && c.toNat ≤ '9'.toNat)
    || ('a'.toNat ≤ c.toNat && c.toNat ≤ 'f'.toNat)
    || ('A'.toNat ≤ c.toNat && c.toNat ≤ 'F'.toNat)

/-- Numeric value of one hex digit. -/
def hexDigitVal (c : Char) : Nat :=
  if '0'.toNat ≤ c.toNat && c.toNat ≤ '9'.toNat then c.toNat - '0'.toNat
  else if 'a'.toNat ≤ c.toNat && c.toNat ≤ 'f'.toNat then c.toNat - 'a'.toNat + 10
  else c.toNat - 'A'.toNat + 10

/-- Maximal run of hex digits at the head of the string (the greedy `+`). -/
def takeHexRun : List Char → List Char
  | [] => []
  | c :: t => if isHexDigitCh c then c :: takeHexRun t else []

/-- Value of a hex digit string (what `int(hex_value, 16)` computes). -/
def hexRunVal (ds : List Char) : Nat := ds.foldl (fun a c => a * 16 + hexDigitVal c) 0

/-- Try to match the regex `Read value (0x[0-9a-fA-F]+)` at the head of `s`,
returning the value of the captured hex literal. -/
def matchReadValueAt (s : List Char) : Option Nat :=
  match dropStart? ("Read value 0x".data) s with
  | none => none
  | some rest =>
    if takeHexRun rest = [] then none else some (hexRunVal (takeHexRun rest))

/-- `re.search` of `Read value (0x[0-9a-fA-F]+)`: leftmost match wins. -/
def searchReadValue : List Char → Option Nat
  | [] => none
  | c :: t =>
    match matchReadValueAt (c :: t) with
    | some v => some v
    | none => searchReadValue t

/-- `parse_devmem_value(response)`: regex search first, then the explicit
`'Read value 0x0' in response` fallback, else `None`. -/
def parse_devmem_value (response : List Char) : Option Nat :=
  match searchReadValue response with
  | some v => some v
  | none =>
    if containsSub ("Read value 0x0".data) response then some 0 else none

/-- Refinement candidate, from the spec reading of the parser: only the
regex branch, with no fallback for the literal zero. -/
def parse_devmem_value_regex_only (response : List Char) : Option Nat :=
  searchReadValue response

/-! ### The command/response engine (`send_command`) -/

/-- The shell idle prompt (`PROMPT` in the script). -/
def PROMPT : List Char := "uart:~$".data

/-- The terminal condition of the collection loop: the line contains the idle
prompt, the read marker, or the write marker. -/
def isTerminalLine (line : List Char) : Bool :=
  containsSub PROMPT line || containsSub ("Read value".data) line
    || containsSub ("Writing value".data) line

/-- The receive loop of `send_command`: each raw line is stripped; empty lines
are ignored; the first non-empty line containing the command text is discarded
as the echo; other lines are appended (plus `'\n'`) and collection stops after
a terminal line.  List exhaustion models deadline expiry.  The second
component counts lines discarded as echo (instrumentation). -/
def collectLoop (cmd : List Char) : Bool → List Char → List (List Char) → List Char × Nat
  | _, acc, [] => (acc, 0)
  | echoed, acc, raw :: rest =>
    if stripChars raw = [] then
      collectLoop cmd echoed acc rest
    else if echoed = false ∧ containsSub cmd (stripChars raw) = true then
      ((collectLoop cmd true acc rest).1, (collectLoop cmd true acc rest).2 + 1)
    else if isTerminalLine (stripChars raw) = true then
      (acc ++ stripChars raw ++ ['\n'], 0)
    else
      collectLoop cmd echoed (acc ++ stripChars raw ++ ['\n']) rest

/-- `send_command(ser, command)`: the accumulated response text for the raw
line stream `lines` arriving before the deadline. -/
def send_command (cmd : List Char) (lines : List (List Char)) : List Char :=
  (collectLoop cmd false [] lines).1

/-- Number of lines `send_command` discards as command echo. -/
def echoSkips (cmd : List Char) (lines : List (List Char)) : Nat :=
  (collectLoop cmd false [] lines).2

/-- Concatenation of lines, each followed by a line terminator. -/
def joinLines (ls : List (List Char)) : List Char :=
  ls.foldr (fun l acc => l ++ '\n' :: acc) []

/-- Remove the first element that contains `cmd` as a substring, if any. -/
def dropOneEcho (cmd : List Char) : List (List Char) → List (List Char)
  | [] => []
  | l :: t => if containsSub cmd l then t else l :: dropOneEcho cmd t

/-! ### The register operation layer (`execute_devmem` and friends) -/

/-- The result of `execute_devmem` in Python: `None`, a bool (writes), or
an unsigned integer (reads). -/
inductive PyResult where
  | vNone : PyResult
  | vBool : Bool → PyResult
  | vInt : Nat → PyResult
deriving DecidableEq, Repr

/-- Decimal digits of `n`, most significant first (Python `str(int)`);
`fuel` bounds the digit count and is always passed ≥ 24. -/
def toDecRev : Nat → Nat → List Char
  | 0, _ => []
  | fuel + 1, n => if n = 0 then [] else Char.ofNat (48 + n % 10) :: toDecRev fuel (n / 10)

/-- Python `str(n)` for a non-negative int (below 10^24). -/
def decStr (n : Nat) : List Char := if n = 0 then ['0'] else (toDecRev 24 n).reverse

/-- Lowercase hex digit, as produced by Python's `%x` formatting. -/
def hexDigitChar (n : Nat) : Char :=
  if n < 10 then Char.ofNat (48 + n) else Char.ofNat (87 + n)

/-- Hex digits of `n`, least significant first; fuel ≥ 16 exceeds any register
address width used by the script (all addresses are below 2^64). -/
def toHexRev : Nat → Nat → List Char
  | 0, _ => []
  | fuel + 1, n => if n = 0 then [] else hexDigitChar (n % 16) :: toHexRev fuel (n / 16)

/-- Python `"%x" % n`: lowercase hex digits of `n`. -/
def hexStr (n : Nat) : List Char := if n = 0 then ['0'] else (toHexRev 16 n).reverse

/-- Python `f"0x{n:08x}"`: `0x` plus the hex digits zero-padded to width 8. -/
def fmtHex8 (n : Nat) : List Char :=
  '0' :: 'x' :: (List.replicate (8 - (hexStr n).length) '0' ++ hexStr n)

/-- The command text `execute_devmem` builds: `devmem <address> <width>` for a
read and `devmem <address> <width> <value>` for a write. -/
def buildCommand (address : List Char) (width : Nat) (value : Option Nat) : List Char :=
  match value with
  | some v => "devmem ".data ++ address ++ " ".data ++ decStr width ++ " ".data ++ decStr v
  | none => "devmem ".data ++ address ++ " ".data ++ decStr width

/-- Classification of a response by `execute_devmem`: a wholly blank response
returns `None` for both operations; then writes succeed on the write marker,
the prompt, or (dead branch, kept from the source) a blank response; reads
return `parse_devmem_value`. -/
def devmem_result (value : Option Nat) (response : List Char) : PyResult :=
  if stripChars response = [] then PyResult.vNone
  else
    match value with
    | some _ =>
      if containsSub ("Writing value".data) response = true ∨ containsSub PROMPT response = true
          ∨ stripChars response = [] then PyResult.vBool true
      else PyResult.vBool false
    | none =>
      match parse_devmem_value response with
      | some n => PyResult.vInt n
      | none => PyResult.vNone

/-- The serial device, abstracted: the raw line stream that arrives (before
the deadline) in reply to a given sent command. -/
def Device : Type := List Char → List (List Char)

/-- `execute_devmem(ser, address, value, width)`. -/
def execute_devmem (dev : Device) (address : List Char) (value : Option Nat) (width : Nat) :
    PyResult :=
  devmem_result value (send_command (buildCommand address width value) (dev (buildCommand address width value)))

/-- `check_cache_profiling_enabled(ser, enable_reg)`: a readable register is
enabled iff non-zero; an unreadable one (`None`) reads as disabled.  (The
`vBool` arm is unreachable for reads; Python's `result != 0` would give `b`.) -/
def check_cache_profiling_enabled (dev : Device) (enable_reg : List Char) : Bool :=
  match execute_devmem dev enable_reg none 32 with
  | PyResult.vInt n => n != 0
  | PyResult.vBool b => b
  | PyResult.vNone => false

/-- `calculate_hit_rate(hits, misses)`; Python's float arithmetic is modelled
by exact rationals. -/
def calculate_hit_rate (hits misses : Nat) : ℚ :=
  if hits + misses = 0 then 0 else ((hits : ℚ) / ((hits + misses : Nat) : ℚ)) * 100

/-! ### Platform configuration and `read_cache_counters` -/

/-- One entry of `PLATFORM_CONFIGS`, plus the `name` key that `main` adds
before calling `read_cache_counters`.  Offsets that are absent from a
platform's dict are `none` (a `[]` access on them raises `KeyError`). -/
structure PlatformConfig where
  base : Nat
  enable_offset : Nat
  inst_hit_offset : Option Nat
  inst_miss_offset : Option Nat
  data_hit_offset : Option Nat
  data_miss_offset : Option Nat
  hit_offset : Option Nat
  miss_offset : Option Nat
  lmiss_offset : Option Nat
  clear_offset : Option Nat
  has_inst : Bool
  has_data : Bool
  name : List Char
deriving DecidableEq

/-- `PLATFORM_CONFIGS["nrf5340"]` with `name` set as `main` does. -/
def nrf5340_config : PlatformConfig :=
  ⟨0x50001000, 0x50C, some 0x400, some 0x404, some 0x408, some 0x40C,
   none, none, none, none, true, true, "nrf5340".data⟩

/-- `PLATFORM_CONFIGS["nrf7002"]` with `name` set as `main` does. -/
def nrf7002_config : PlatformConfig :=
  ⟨0x50001000, 0x50C, some 0x400, some 0x404, some 0x408, some 0x40C,
   none, none, none, none, true, true, "nrf7002".data⟩

/-- `PLATFORM_CONFIGS["nrf54l15"]` with `name` set as `main` does. -/
def nrf54l15_config : PlatformConfig :=
  ⟨0xE0082000, 0x414, none, none, none, none,
   some 0x41C, some 0x420, some 0x424, some 0x418, false, false, "nrf54l15".data⟩

/-- Result of `read_cache_counters`: the counter dict (insertion order), the
`missing` list, plus instrumentation — the devmem commands issued in order and
the user-facing report lines (the decorative summary table is presentation
only and is not modelled). -/
structure CountersResult where
  counters : List (List Char × Nat)
  missing : List (List Char)
  sent : List (List Char)
  output : List (List Char)
deriving DecidableEq

/-- A single counter read: `execute_devmem(ser, addr)` with default width 32,
giving `int` or `None` (the `vBool` arm cannot arise for a read). -/
def devRead (dev : Device) (address : List Char) : Option Nat :=
  match execute_devmem dev address none 32 with
  | PyResult.vInt n => some n
  | _ => none

/-- Sort a read value into the counters dict or the missing list. -/
def pairResult (v : Option Nat) (nm : List Char) : List (List Char × Nat) × List (List Char) :=
  match v with
  | some n => ([(nm, n)], [])
  | none => ([], [nm])

/-- Read a hit/miss register pair, returning (counters, missing, commands). -/
def counterPair (dev : Device) (base hitOff missOff : Nat) (hitName missName : List Char) :
    List (List Char × Nat) × List (List Char) × List (List Char) :=
  (((pairResult (devRead dev (fmtHex8 (base + hitOff))) hitName).1
      ++ (pairResult (devRead dev (fmtHex8 (base + missOff))) missName).1),
   ((pairResult (devRead dev (fmtHex8 (base + hitOff))) hitName).2
      ++ (pairResult (devRead dev (fmtHex8 (base + missOff))) missName).2),
   [buildCommand (fmtHex8 (base + hitOff)) 32 none,
    buildCommand (fmtHex8 (base + missOff)) 32 none])

/-- The report lines printed up to the enable check when profiling is off. -/
def notEnabledOutput : List (List Char) :=
  ["Reading cache counters...".data,
   "✗ Cache profiling is not enabled!".data,
   "Please enable cache profiling first:".data,
   "  python cache_profiler_serial_windows.py nrf5340 enable".data]

/-- The report lines printed up to the enable check when profiling is on. -/
def enabledOutput : List (List Char) :=
  ["Reading cache counters...".data, "✓ Cache profiling is enabled".data]

/-- `read_cache_counters(ser, platform_config)`.  `none` models the `KeyError`
Python would raise on a missing offset key; otherwise the counter dict plus
instrumentation is returned.  The unified branch is taken when the platform
name contains "nrf54l15" or neither counter group is present. -/
def read_cache_counters (dev : Device) (cfg : PlatformConfig) : Option CountersResult :=
  if check_cache_profiling_enabled dev (fmtHex8 (cfg.base + cfg.enable_offset)) then
    if containsSub ("nrf54l15".data) cfg.name || (!cfg.has_inst && !cfg.has_data) then
      match cfg.hit_offset, cfg.miss_offset with
      | some ho, some mo =>
        match cfg.lmiss_offset with
        | some lo =>
          some ⟨(counterPair dev cfg.base ho mo ("hit".data) ("miss".data)).1
                  ++ (pairResult (devRead dev (fmtHex8 (cfg.base + lo))) ("line_miss".data)).1,
                (counterPair dev cfg.base ho mo ("hit".data) ("miss".data)).2.1
                  ++ (pairResult (devRead dev (fmtHex8 (cfg.base + lo))) ("line_miss".data)).2,
                buildCommand (fmtHex8 (cfg.base + cfg.enable_offset)) 32 none
                  :: ((counterPair dev cfg.base ho mo ("hit".data) ("miss".data)).2.2
                      ++ [buildCommand (fmtHex8 (cfg.base + lo)) 32 none]),
                enabledOutput⟩
        | none =>
          some ⟨(counterPair dev cfg.base ho mo ("hit".data) ("miss".data)).1,
                (counterPair dev cfg.base ho mo ("hit".data) ("miss".data)).2.1,
                buildCommand (fmtHex8 (cfg.base + cfg.enable_offset)) 32 none
                  :: (counterPair dev cfg.base ho mo ("hit".data) ("miss".data)).2.2,
                enabledOutput⟩
      | _, _ => none
    else
      match (if cfg.has_inst then
               match cfg.inst_hit_offset, cfg.inst_miss_offset with
               | some iho, some imo =>
                 some (counterPair dev cfg.base iho imo ("instruction_hit".data) ("instruction_miss".data))
               | _, _ => none
             else some ([], [], [])),
            (if cfg.has_data then
               match cfg.data_hit_offset, cfg.data_miss_offset with
               | some dho, some dmo =>
                 some (counterPair dev cfg.base dho dmo ("data_hit".data) ("data_miss".data))
               | _, _ => none
             else some ([], [], [])) with
      | some pInst, some pData =>
        some ⟨pInst.1 ++ pData.1, pInst.2.1 ++ pData.2.1,
              buildCommand (fmtHex8 (cfg.base + cfg.enable_offset)) 32 none
                :: (pInst.2.2 ++ pData.2.2),
              enabledOutput⟩
      | _, _ => none
  else
    some ⟨[], [],
          [buildCommand (fmtHex8 (cfg.base + cfg.enable_offset)) 32 none],
          notEnabledOutput⟩

/-- A device that never answers (deadline always expires with no lines). -/
def devSilent : Device := fun _ => []

/-- A device that answers with noise carrying no marker and no value. -/
def devNoise : Device := fun _ => ["ok".data]

/-- A device whose enable register always reads back 1. -/
def devEnabledOne : Device := fun _ => ["Read value 0x00000001".data]

/-! ### Helper lemmas: substrings and stripping -/

lemma mem_of_dropStart {n h r : List Char} (hd : dropStart? n h = some r) {c : Char}
    (hc : c ∈ n) : c ∈ h := by
  induction n generalizing h r with
  | nil => cases hc
  | cons a p ih =>
    cases h with
    | nil => simp [dropStart?] at hd
    | cons b s =>
      by_cases hab : a = b
      · subst hab
        simp only [dropStart?, if_pos rfl] at hd
        rcases List.mem_cons.mp hc with rfl | hcp
        · exact List.mem_cons_self _ _
        · exact List.mem_cons_of_mem _ (ih hd hcp)
      · simp [dropStart?, hab] at hd

lemma mem_of_containsSub {n h : List Char} (hc : containsSub n h = true) {c : Char}
    (hm : c ∈ n) : c ∈ h := by
  induction h with
  | nil =>
    cases n with
    | nil => cases hm
    | cons a t => simp [containsSub, List.isEmpty] at hc
  | cons b t ih =>
    rcases Bool.or_eq_true_iff.mp hc with h1 | h1
    · obtain ⟨r, hr⟩ := Option.isSome_iff_exists.mp h1
      exact mem_of_dropStart hr hm
    · exact List.mem_cons_of_mem _ (ih h1)

lemma dropStart_append {p q s r : List Char} (h : dropStart? (p ++ q) s = some r) :
    ∃ m, dropStart? p s = some m ∧ dropStart? q m = some r := by
  induction p generalizing s with
  | nil => exact ⟨s, rfl, by simpa using h⟩
  | cons a p ih =>
    cases s with
    | nil => simp [dropStart?] at h
    | cons b s =>
      by_cases hab : a = b
      · subst hab
        simp only [List.cons_append, dropStart?, if_pos rfl] at h ⊢
        exact ih h
      · simp [dropStart?, hab] at h

lemma containsSub_append_left {p q h : List Char} (hc : containsSub (p ++ q) h = true) :
    containsSub p h = true := by
  induction h with
  | nil =>
    cases p with
    | nil => rfl
    | cons a t => simp [containsSub, List.isEmpty] at hc
  | cons b t ih =>
    rcases Bool.or_eq_true_iff.mp hc with h1 | h1
    · obtain ⟨r, hr⟩ := Option.isSome_iff_exists.mp h1
      obtain ⟨m, hm, _⟩ := dropStart_append hr
      exact Bool.or_eq_true_iff.mpr (Or.inl (Option.isSome_iff_exists.mpr ⟨m, hm⟩))
    · exact Bool.or_eq_true_iff.mpr (Or.inr (ih h1))

lemma stripChars_eq_nil_ws {r : List Char} (h : stripChars r = []) :
    ∀ c ∈ r, wsChar c = true := by
  intro c hc
  unfold stripChars at h
  rw [List.reverse_eq_nil_iff, List.dropWhile_eq_nil_iff] at h
  have h2 : ∀ x ∈ r.dropWhile wsChar, wsChar x = true := by
    intro x hx
    exact h x (List.mem_reverse.mpr hx)
  have hsplit : c ∈ r.takeWhile wsChar ++ r.dropWhile wsChar := by
    rw [List.takeWhile_append_dropWhile]
    exact hc
  rcases List.mem_append.mp hsplit with h3 | h3
  · exact List.mem_takeWhile_imp h3
  · exact h2 c h3

lemma strip_ne_of_contains (n r : List Char) (c : Char) (hc : c ∈ n)
    (hw : wsChar c = false) (h : containsSub n r = true) : stripChars r ≠ [] := by
  intro hs
  have hcr : c ∈ r := mem_of_containsSub h hc
  have := stripChars_eq_nil_ws hs c hcr
  rw [hw] at this
  exact Bool.false_ne_true this

/-! ### Helper lemmas: the reply parser -/

lemma matchReadValueAt_isSome_of_zero {h r : List Char}
    (hd : dropStart? ("Read value 0x0".data) h = some r) : matchReadValueAt h ≠ none := by
  have hsplit : ("Read value 0x0".data) = ("Read value 0x".data) ++ ['0'] := by decide
  rw [hsplit] at hd
  obtain ⟨m, hm, hm0⟩ := dropStart_append hd
  have hm' : m = '0' :: r := by
    cases m with
    | nil => simp [dropStart?] at hm0
    | cons x xs =>
      by_cases hx : ('0' : Char) = x
      · subst hx
        simp [dropStart?] at hm0
        rw [hm0]
      · simp [dropStart?, hx] at hm0
  subst hm'
  unfold matchReadValueAt
  rw [hm]
  have h0 : isHexDigitCh '0' = true := by decide
  simp [takeHexRun, h0]

lemma searchReadValue_of_contains {h : List Char}
    (hc : containsSub ("Read value 0x0".data) h = true) : searchReadValue h ≠ none := by
  induction h with
  | nil => exact absurd hc (by decide)
  | cons b t ih =>
    rcases Bool.or_eq_true_iff.mp hc with h1 | h1
    · obtain ⟨r, hr⟩ := Option.isSome_iff_exists.mp h1
      have hmat := matchReadValueAt_isSome_of_zero hr
      cases hmv : matchReadValueAt (b :: t) with
      | none => exact absurd hmv hmat
      | some v => simp [searchReadValue, hmv]
    · have hst := ih h1
      cases hmv : matchReadValueAt (b :: t) with
      | none => simpa [searchReadValue, hmv] using hst
      | some v => simp [searchReadValue, hmv]

/-! ### Helper lemmas: the collection loop of `send_command` -/

lemma collectLoop_skip_empty (cmd : List Char) (e : Bool) (acc : List Char)
    (rest : List (List Char)) :
    ∀ pre : List (List Char), (∀ l ∈ pre, stripChars l = []) →
      collectLoop cmd e acc (pre ++ rest) = collectLoop cmd e acc rest := by
  intro pre
  induction pre with
  | nil => intro _; rfl
  | cons p pre ih =>
    intro hpre
    have hp : stripChars p = [] := hpre p (List.mem_cons_self _ _)
    have h2 : ∀ l ∈ pre, stripChars l = [] := fun l hl => hpre l (List.mem_cons_of_mem _ hl)
    rw [List.cons_append]
    simp only [collectLoop, hp, if_pos rfl]
    exact ih h2

lemma isTerminalLine_nil : isTerminalLine [] = false := by decide

lemma collectLoop_echoed_payload (cmd : List Char) :
    ∀ (payload : List (List Char)) (acc : List Char) (term : List Char),
      (∀ l ∈ payload, stripChars l ≠ [] ∧ isTerminalLine (stripChars l) = false) →
      isTerminalLine (stripChars term) = true →
      collectLoop cmd true acc (payload ++ [term]) =
        (acc ++ joinLines (payload.map stripChars ++ [stripChars term]), 0) := by
  intro payload
  induction payload with
  | nil =>
    intro acc term _ hterm
    have ht : stripChars term ≠ [] := by
      intro h
      rw [h, isTerminalLine_nil] at hterm
      exact Bool.false_ne_true hterm
    rw [List.nil_append]
    simp only [collectLoop]
    split_ifs with hA hB
    · exact absurd hA ht
    · exact hB.1.elim
    · simp [joinLines]
  | cons l payload ih =>
    intro acc term hpay hterm
    have hl := hpay l (List.mem_cons_self _ _)
    have h2 : ∀ x ∈ payload, stripChars x ≠ [] ∧ isTerminalLine (stripChars x) = false :=
      fun x hx => hpay x (List.mem_cons_of_mem _ hx)
    rw [List.cons_append]
    simp only [collectLoop]
    split_ifs with hA hB hC
    · exact absurd hA hl.1
    · exact absurd hB (by simp)
    · exact absurd hC (by simp [hl.2])
    · rw [ih (acc ++ stripChars l ++ ['\n']) term h2 hterm]
      simp [joinLines, List.append_assoc]

lemma collectLoop_count_echoed (cmd : List Char) :
    ∀ (lines : List (List Char)) (acc : List Char), (collectLoop cmd true acc lines).2 = 0 := by
  intro lines
  induction lines with
  | nil => intro acc; rfl
  | cons raw rest ih =>
    intro acc
    simp only [collectLoop]
    split_ifs with hA hB hC
    · exact ih acc
    · exact absurd hB (by simp)
    · rfl
    · exact ih _

lemma collectLoop_count_le_one (cmd : List Char) :
    ∀ (lines : List (List Char)) (e : Bool) (acc : List Char),
      (collectLoop cmd e acc lines).2 ≤ 1 := by
  intro lines
  induction lines with
  | nil => intro e acc; exact Nat.zero_le 1
  | cons raw rest ih =>
    intro e acc
    cases e with
    | true =>
      rw [collectLoop_count_echoed cmd (raw :: rest) acc]
      exact Nat.zero_le 1
    | false =>
      simp only [collectLoop]
      split_ifs with hA hB hC
      · exact ih false acc
      · simp [collectLoop_count_echoed cmd rest acc]
      · exact Nat.zero_le 1
      · exact ih false _

lemma collectLoop_all_echoed (cmd : List Char) :
    ∀ (lines : List (List Char)) (acc : List Char),
      (∀ l ∈ lines, isTerminalLine (stripChars l) = false) →
      (collectLoop cmd true acc lines).1 =
        acc ++ joinLines ((lines.map stripChars).filter (fun l => !l.isEmpty)) := by
  intro lines
  induction lines with
  | nil => intro acc _; simp [collectLoop, joinLines]
  | cons raw rest ih =>
    intro acc hnt
    have hr := hnt raw (List.mem_cons_self _ _)
    have h2 : ∀ l ∈ rest, isTerminalLine (stripChars l) = false :=
      fun l hl => hnt l (List.mem_cons_of_mem _ hl)
    simp only [collectLoop]
    split_ifs with hA hB hC
    · rw [ih acc h2]
      simp [hA]
    · exact absurd hB (by simp)
    · exact absurd hC (by simp [hr])
    · have hne : (stripChars raw).isEmpty = false := by
        cases hsr : stripChars raw with
        | nil => exact absurd hsr hA
        | cons a t => rfl
      rw [ih (acc ++ stripChars raw ++ ['\n']) h2]
      simp [hne, joinLines, List.append_assoc]

lemma collectLoop_all_unechoed (cmd : List Char) :
    ∀ (lines : List (List Char)) (acc : List Char),
      (∀ l ∈ lines, isTerminalLine (stripChars l) = false) →
      (collectLoop cmd false acc lines).1 =
        acc ++ joinLines (dropOneEcho cmd ((lines.map stripChars).filter (fun l => !l.isEmpty))) := by
  intro lines
  induction lines with
  | nil => intro acc _; simp [collectLoop, joinLines, dropOneEcho]
  | cons raw rest ih =>
    intro acc hnt
    have hr := hnt raw (List.mem_cons_self _ _)
    have h2 : ∀ l ∈ rest, isTerminalLine (stripChars l) = false :=
      fun l hl => hnt l (List.mem_cons_of_mem _ hl)
    simp only [collectLoop]
    split_ifs with hA hB hC
    · rw [ih acc h2]
      simp [hA]
    · have hecho : containsSub cmd (stripChars raw) = true := hB.2
      have hne : (stripChars raw).isEmpty = false := by
        cases hsr : stripChars raw with
        | nil => exact absurd hsr hA
        | cons a t => rfl
      rw [collectLoop_all_echoed cmd rest acc h2]
      simp [hne, dropOneEcho, hecho]
    · exact absurd hC (by simp [hr])
    · have hecho : containsSub cmd (stripChars raw) = false := by
        cases hcc : containsSub cmd (stripChars raw) with
        | false => rfl
        | true => exact absurd ⟨trivial, hcc⟩ hB
      have hne : (stripChars raw).isEmpty = false := by
        cases hsr : stripChars raw with
        | nil => exact absurd hsr hA
        | cons a t => rfl
      rw [ih (acc ++ stripChars raw ++ ['\n']) h2]
      simp [hne, dropOneEcho, hecho, joinLines, List.append_assoc]

lemma contains_of_searchReadValue {h : List Char} (hs : searchReadValue h ≠ none) :
    containsSub ("Read value 0x".data) h = true := by
  induction h with
  | nil => simp [searchReadValue] at hs
  | cons b t ih =>
    cases hmv : matchReadValueAt (b :: t) with
    | some v =>
      have hd : (dropStart? ("Read value 0x".data) (b :: t)).isSome = true := by
        unfold matchReadValueAt at hmv
        cases hds : dropStart? ("Read value 0x".data) (b :: t) with
        | none => rw [hds] at hmv; simp at hmv
        | some m => simp
      exact Bool.or_eq_true_iff.mpr (Or.inl hd)
    | none =>
      have hst : searchReadValue t ≠ none := by
        simpa [searchReadValue, hmv] using hs
      exact Bool.or_eq_true_iff.mpr (Or.inr (ih hst))

/-- Helper shared by the claims about the disabled-profiling abort path:
when the enable check fails, `read_cache_counters` returns the empty counter
dict, issues only the enable-register read, and prints the enable-first
guidance. -/
lemma read_cache_counters_not_enabled (dev : Device) (cfg : PlatformConfig)
    (h : check_cache_profiling_enabled dev (fmtHex8 (cfg.base + cfg.enable_offset)) = false) :
    read_cache_counters dev cfg =
      some ⟨[], [], [buildCommand (fmtHex8 (cfg.base + cfg.enable_offset)) 32 none],
            notEnabledOutput⟩ := by
  simp [read_cache_counters, h]

/-! ### The claims -/

/-- C1: Echo suppression.  For every sent command and every raw line stream
made of some blank lines, then a first non-empty line that contains the
command as a substring, then N non-empty payload (non-terminal) lines, then a
line carrying a terminal marker, the accumulated response is exactly the N
payload lines plus the terminal line, each followed by a line terminator, in
original order, with the echo line excluded; and on every stream at most one
line is ever discarded as echo. -/
theorem engine_echo_suppression (cmd : List Char) (pre : List (List Char))
    (echoLine : List Char) (payload : List (List Char)) (term : List Char)
    (hpre : ∀ l ∈ pre, stripChars l = [])
    (hfe : stripChars echoLine ≠ [])
    (hecho : containsSub cmd (stripChars echoLine) = true)
    (hpay : ∀ l ∈ payload, stripChars l ≠ [] ∧ isTerminalLine (stripChars l) = false)
    (hterm : isTerminalLine (stripChars term) = true) :
    send_command cmd (pre ++ echoLine :: (payload ++ [term])) =
      joinLines (payload.map stripChars ++ [stripChars term]) ∧
    ∀ ls, echoSkips cmd ls ≤ 1 := by
  constructor
  · unfold send_command
    rw [collectLoop_skip_empty cmd false [] (echoLine :: (payload ++ [term])) pre hpre]
    simp only [collectLoop]
    split_ifs with hA hB hC
    · exact absurd hA hfe
    · rw [collectLoop_echoed_payload cmd payload [] term hpay hterm]
      simp
    · exact absurd ⟨trivial, hecho⟩ hB
    · exact absurd ⟨trivial, hecho⟩ hB
  · intro ls
    exact collectLoop_count_le_one cmd ls false []

/-- C1 witness: a concrete echo + payload + prompt stream. -/
theorem engine_echo_suppression_witness :
    send_command ("devmem 0x50001400 32".data)
      ["devmem 0x50001400 32".data, "payload line".data, "uart:~$".data] =
      "payload line\nuart:~$\n".data := by
  have h := (engine_echo_suppression ("devmem 0x50001400 32".data) []
    ("devmem 0x50001400 32".data) ["payload line".data] ("uart:~$".data)
    (by decide) (by decide) (by decide) (by decide) (by decide)).1
  exact h.trans (by decide)

/-- C2 counterexample: a wholly empty WRITE response does NOT classify as
success — `execute_devmem` returns `None` (falsy at every caller), not
`True`. -/
theorem write_empty_counterexample :
    execute_devmem devSilent ("0x5000150c".data) (some 1) 32 = PyResult.vNone ∧
    PyResult.vNone ≠ PyResult.vBool true := by decide

/-- C2 (amended): a WRITE response containing `Writing value` or the idle
prompt classifies as success; a completely empty response yields the
unavailable result `None` (treated as failure by callers); any other
non-matching content classifies as failure. -/
theorem write_success_classification (v : Nat) (r : List Char) :
    (containsSub ("Writing value".data) r = true ∨ containsSub PROMPT r = true →
        devmem_result (some v) r = PyResult.vBool true) ∧
    (stripChars r = [] → devmem_result (some v) r = PyResult.vNone) ∧
    (containsSub ("Writing value".data) r = false → containsSub PROMPT r = false →
        stripChars r ≠ [] → devmem_result (some v) r = PyResult.vBool false) := by
  refine ⟨?_, ?_, ?_⟩
  · intro hdisj
    have hne : stripChars r ≠ [] := by
      rcases hdisj with h | h
      · exact strip_ne_of_contains _ r 'W' (by decide) (by decide) h
      · exact strip_ne_of_contains _ r 'u' (by decide) (by decide) h
    rcases hdisj with h | h
    · simp [devmem_result, hne, h]
    · simp [devmem_result, hne, h]
  · intro h
    simp [devmem_result, h]
  · intro h1 h2 h3
    simp [devmem_result, h1, h2, h3]

/-- C2 witness: a response carrying the write marker classifies as success. -/
theorem write_success_classification_witness :
    devmem_result (some 1) ("Writing value 1 to 0x5000150c".data) = PyResult.vBool true :=
  (write_success_classification 1 ("Writing value 1 to 0x5000150c".data)).1 (Or.inl (by decide))

/-- C3 counterexample: a response that contains the line `Read value 0x0` can
still parse to a non-zero integer, because the leftmost regex match wins. -/
theorem parse_zero_value_counterexample :
    containsSub ("Read value 0x0".data) ("Read value 0xff\nRead value 0x0\n".data) = true ∧
    parse_devmem_value ("Read value 0xff\nRead value 0x0\n".data) = some 255 := by decide

/-- C3 (amended): every response containing `Read value 0x0` parses to some
integer, never to the unavailable result `None`; and the reply line
`Read value 0x0` itself decodes to the integer 0. -/
theorem parse_zero_value_amended :
    (∀ r, containsSub ("Read value 0x0".data) r = true → parse_devmem_value r ≠ none) ∧
    parse_devmem_value ("Read value 0x0".data) = some 0 := by
  constructor
  · intro r hc
    cases hsv : searchReadValue r with
    | some v => simp [parse_devmem_value, hsv]
    | none => simp [parse_devmem_value, hsv, hc]
  · decide

/-- C3 witness: a concrete zero-value reply is not unavailable. -/
theorem parse_zero_value_amended_witness :
    parse_devmem_value ("uart:~$ Read value 0x0".data) ≠ none :=
  parse_zero_value_amended.1 ("uart:~$ Read value 0x0".data) (by decide)

/-- C4: a READ response that contains the idle prompt but no `Read value`
text parses to the unavailable result `None` — never to the integer 0. -/
theorem prompt_only_read_unavailable (r : List Char)
    (hp : containsSub PROMPT r = true)
    (hrv : containsSub ("Read value".data) r = false) :
    parse_devmem_value r = none ∧ devmem_result none r = PyResult.vNone := by
  have hsearch : searchReadValue r = none := by
    cases hsv : searchReadValue r with
    | none => rfl
    | some v =>
      have h1 : containsSub ("Read value 0x".data) r = true :=
        contains_of_searchReadValue (by simp [hsv])
      have hsplit : ("Read value 0x".data) = ("Read value".data) ++ (" 0x".data) := by decide
      rw [hsplit] at h1
      have h2 := containsSub_append_left h1
      rw [h2] at hrv
      exact absurd hrv (by simp)
  have hfb : containsSub ("Read value 0x0".data) r = false := by
    cases hc : containsSub ("Read value 0x0".data) r with
    | false => rfl
    | true =>
      have hsplit : ("Read value 0x0".data) = ("Read value".data) ++ (" 0x0".data) := by decide
      rw [hsplit] at hc
      have h2 := containsSub_append_left hc
      rw [h2] at hrv
      exact absurd hrv (by simp)
  have hparse : parse_devmem_value r = none := by
    simp [parse_devmem_value, hsearch, hfb]
  have hne : stripChars r ≠ [] := strip_ne_of_contains PROMPT r 'u' (by decide) (by decide) hp
  exact ⟨hparse, by simp [devmem_result, hne, hparse]⟩

/-- C4 witness: a prompt-only reply stream decodes to unavailable. -/
theorem prompt_only_read_unavailable_witness :
    parse_devmem_value ("uart:~$\n".data) = none ∧
    devmem_result none ("uart:~$\n".data) = PyResult.vNone :=
  prompt_only_read_unavailable ("uart:~$\n".data) (by decide) (by decide)

/-- C5: for all non-negative integers with positive total, the hit rate is
`100*h/(h+m)`; with both zero it is exactly 0, with no division fault (the
function is total). -/
theorem hit_rate_formula (h m : Nat) :
    (0 < h + m → calculate_hit_rate h m = 100 * (h : ℚ) / ((h : ℚ) + (m : ℚ))) ∧
    calculate_hit_rate 0 0 = 0 := by
  constructor
  · intro hpos
    have hne : h + m ≠ 0 := Nat.pos_iff_ne_zero.mp hpos
    have hq : ((h : ℚ) + (m : ℚ)) ≠ 0 := by
      have hcast : ((h + m : Nat) : ℚ) ≠ 0 := Nat.cast_ne_zero.mpr hne
      push_cast at hcast
      exact hcast
    simp only [calculate_hit_rate, if_neg hne]
    push_cast
    field_simp
    ring
  · simp [calculate_hit_rate]

/-- C5 witness: 100 hits, 50 misses. -/
theorem hit_rate_formula_witness :
    calculate_hit_rate 100 50 = 100 * ((100 : Nat) : ℚ) / (((100 : Nat) : ℚ) + ((50 : Nat) : ℚ)) :=
  (hit_rate_formula 100 50).1 (by norm_num)

/-- C6: if no line of the stream carries a terminal marker before the deadline
(list exhaustion), `send_command` still returns the partial text collected so
far — all non-empty stripped lines in order, minus at most one echo line —
as a plain value (the embedding is total: no exception and a single command
issue per call). -/
theorem timeout_returns_collected (cmd : List Char) (lines : List (List Char))
    (h : ∀ l ∈ lines, isTerminalLine (stripChars l) = false) :
    send_command cmd lines =
      joinLines (dropOneEcho cmd ((lines.map stripChars).filter (fun l => !l.isEmpty))) := by
  unfold send_command
  rw [collectLoop_all_unechoed cmd lines [] h]
  exact List.nil_append _

/-- C6 witness: a marker-less stream returns the partial text. -/
theorem timeout_returns_collected_witness :
    send_command ("devmem 0x50001400 32".data) ["partial output".data] =
      "partial output\n".data := by
  have h := timeout_returns_collected ("devmem 0x50001400 32".data)
    ["partial output".data] (by decide)
  exact h.trans (by decide)

/-- C7: when the enable check does not confirm a non-zero value,
`read_cache_counters` aborts with the enable-first guidance, issues no
counter-register read (only the single enable-register read is sent), and
returns the empty counter snapshot. -/
theorem read_counters_requires_enable (dev : Device) (cfg : PlatformConfig)
    (h : check_cache_profiling_enabled dev (fmtHex8 (cfg.base + cfg.enable_offset)) = false) :
    read_cache_counters dev cfg =
      some ⟨[], [], [buildCommand (fmtHex8 (cfg.base + cfg.enable_offset)) 32 none],
            notEnabledOutput⟩ :=
  read_cache_counters_not_enabled dev cfg h

/-- C7 witness: a silent device fails the enable check and aborts. -/
theorem read_counters_requires_enable_witness :
    read_cache_counters devSilent nrf5340_config =
      some ⟨[], [], [buildCommand (fmtHex8 (nrf5340_config.base + nrf5340_config.enable_offset)) 32 none],
            notEnabledOutput⟩ :=
  read_counters_requires_enable devSilent nrf5340_config (by decide)

/-- C8 counterexample: the command actually sent uses lowercase hex digits,
so it is not the string `devmem 0x5000150C 32` stated in the claim. -/
theorem enable_scenario_counterexample :
    buildCommand (fmtHex8 (nrf5340_config.base + nrf5340_config.enable_offset)) 32 none ≠
      "devmem 0x5000150C 32".data := by decide

/-- C8 (amended): base `0x50001000` plus enable offset `0x50C` resolves to
`0x5000150C`, formatted as `0x` plus 8 lowercase hex digits (`0x5000150c`);
the READ command sent is `devmem 0x5000150c 32`; and a reply containing
`Read value 0x00000001` yields enabled = true. -/
theorem enable_scenario_amended :
    nrf5340_config.base + nrf5340_config.enable_offset = 0x5000150C ∧
    fmtHex8 (nrf5340_config.base + nrf5340_config.enable_offset) = "0x5000150c".data ∧
    buildCommand (fmtHex8 (nrf5340_config.base + nrf5340_config.enable_offset)) 32 none =
      "devmem 0x5000150c 32".data ∧
    check_cache_profiling_enabled devEnabledOne
      (fmtHex8 (nrf5340_config.base + nrf5340_config.enable_offset)) = true := by decide

/-- C9: the parser equals its regex-only refinement on every input — the
explicit `Read value 0x0` fallback branch is unreachable, because any
response containing that substring already has a regex match. -/
theorem parse_fallback_redundant :
    (∀ r, parse_devmem_value r = parse_devmem_value_regex_only r) ∧
    (∀ r, containsSub ("Read value 0x0".data) r = true → searchReadValue r ≠ none) := by
  constructor
  · intro r
    cases hsv : searchReadValue r with
    | some v => simp [parse_devmem_value, parse_devmem_value_regex_only, hsv]
    | none =>
      have hc : containsSub ("Read value 0x0".data) r = false := by
        cases hcc : containsSub ("Read value 0x0".data) r with
        | false => rfl
        | true => exact absurd hsv (searchReadValue_of_contains hcc)
      simp [parse_devmem_value, parse_devmem_value_regex_only, hsv, hc]
  · exact fun r hc => searchReadValue_of_contains hc

/-- C9 witness: the zero-literal reply has a regex match. -/
theorem parse_fallback_redundant_witness :
    searchReadValue ("Read value 0x0".data) ≠ none :=
  parse_fallback_redundant.2 ("Read value 0x0".data) (by decide)

/-- C10: when the enable register cannot be read at all (the read returns
`None`), the enabled check returns false, and `read_cache_counters` reports
the not-enabled guidance — an unreadable enable register is indistinguishable
from a disabled one at this interface. -/
theorem unreadable_enable_disabled (dev : Device) (cfg : PlatformConfig)
    (h : execute_devmem dev (fmtHex8 (cfg.base + cfg.enable_offset)) none 32 = PyResult.vNone) :
    check_cache_profiling_enabled dev (fmtHex8 (cfg.base + cfg.enable_offset)) = false ∧
    read_cache_counters dev cfg =
      some ⟨[], [], [buildCommand (fmtHex8 (cfg.base + cfg.enable_offset)) 32 none],
            notEnabledOutput⟩ := by
  have hc : check_cache_profiling_enabled dev (fmtHex8 (cfg.base + cfg.enable_offset))
      = false := by
    simp [check_cache_profiling_enabled, h]
  exact ⟨hc, read_cache_counters_not_enabled dev cfg hc⟩

/-- C10 witness: a device that answers only unparsable noise reads as
disabled and triggers the guidance. -/
theorem unreadable_enable_disabled_witness :
    check_cache_profiling_enabled devNoise
      (fmtHex8 (nrf5340_config.base + nrf5340_config.enable_offset)) = false ∧
    read_cache_counters devNoise nrf5340_config =
      some ⟨[], [], [buildCommand (fmtHex8 (nrf5340_config.base + nrf5340_config.enable_offset)) 32 none],
            notEnabledOutput⟩ :=
  unreadable_enable_disabled devNoise nrf5340_config (by decide)
